import Mathlib

/-
Verification of the HybridBrain demand forecasting engine
(python-service/models/xgboost_optimal.py, with defaults from
python-service/config/runtime_config.py) against its specification.

Shallow embedding conventions:
- Python floats are modelled as rationals; IEEE rounding is out of scope.
- pandas Series of floats become lists of rationals; NaN is handled at each
  site by the explicit guard the code performs (or by the documented pandas
  semantics of the operation, e.g. rolling windows skip NaN).
- Dates are integer day numbers (days since 1970-01-01). Day of week, day of
  month, month, and ISO week are derived with the standard civil-calendar
  conversions, which is what pandas Timestamp arithmetic computes.
- The fitted XGBoost regressor cannot be embedded; it is abstracted as an
  oracle function parameter (Option-valued to model an exception during
  inference). All theorems hold for every oracle.
- Square roots (sample standard deviations) are irrational on rationals.
  Where the engine stores such a value it is passed as a parameter; concrete
  theorems certify the parameter by the defining equation std^2 = variance,
  general theorems only use 0 <= std, which holds for every standard
  deviation.
- sin/cos of the cyclical feature encodings are irrational; they are fields
  of a Trig parameter record. They only flow into the abstract regressor
  oracle, and every theorem holds for all values.
-/

set_option linter.unusedVariables false

namespace MarketPulse

/-! ## Rational-list helpers (np.mean, pandas mean/std ddof=1) -/

/-- Sum of a list of rationals. -/
def listSum (l : List ℚ) : ℚ := l.foldr (fun a b => a + b) 0

/-- Mean of a list of rationals. pandas mean of an empty series is NaN; every
call site below applies it to a nonempty list (division by zero yields the
junk value 0, never observed). -/
def listMean (l : List ℚ) : ℚ := listSum l / (l.length : ℚ)

/-- Sample variance with ddof = 1 (the pandas `Series.std` convention,
squared). For a singleton list the denominator is 0 and the result is the
junk value 0; call sites branch on the length first, mirroring the NaN
checks in the code. -/
def sampleVar (l : List ℚ) : ℚ :=
  let m := listMean l
  listSum (l.map (fun x => (x - m) ^ 2)) / ((l.length : ℚ) - 1)

/-- Python `round` / `np.round`: round half to even (banker's rounding). -/
def pyRound (x : ℚ) : ℤ :=
  if x - (⌊x⌋ : ℚ) < 1/2 then ⌊x⌋
  else if 1/2 < x - (⌊x⌋ : ℚ) then ⌊x⌋ + 1
  else if ⌊x⌋ % 2 = 0 then ⌊x⌋ else ⌊x⌋ + 1

theorem pyRound_le (x : ℚ) : (pyRound x : ℚ) ≤ x + 1/2 := by
  have h1 : ((⌊x⌋ : ℤ) : ℚ) ≤ x := Int.floor_le x
  have h2 : x < (⌊x⌋ : ℤ) + 1 := Int.lt_floor_add_one x
  unfold pyRound
  split_ifs <;> push_cast <;> linarith

theorem le_pyRound (x : ℚ) : x - 1/2 ≤ (pyRound x : ℚ) := by
  have h1 : ((⌊x⌋ : ℤ) : ℚ) ≤ x := Int.floor_le x
  have h2 : x < (⌊x⌋ : ℤ) + 1 := Int.lt_floor_add_one x
  unfold pyRound
  split_ifs <;> push_cast <;> linarith

/-- An integer below `b + 1/2` is at most `b`. -/
theorem int_le_of_lt_half (a b : ℤ) (h : (a : ℚ) ≤ (b : ℚ) + 1/2) : a ≤ b := by
  by_contra hc
  push_neg at hc
  have : ((b : ℚ) + 1 ≤ (a : ℚ)) := by exact_mod_cast hc
  linarith

/-- An integer above `b - 1/2` is at least `b`. -/
theorem int_ge_of_gt_half (a b : ℤ) (h : (b : ℚ) - 1/2 ≤ (a : ℚ)) : b ≤ a := by
  by_contra hc
  push_neg at hc
  have : ((a : ℚ) + 1 ≤ (b : ℚ)) := by exact_mod_cast hc
  linarith

/-! ## Calendar model

Integer day numbers (days since 1970-01-01) stand for pandas Timestamps;
adding one day is adding 1. The civil conversions below are the standard
era-based algorithms used by production date libraries. -/

/-- pandas `Timestamp.dayofweek`: Monday = 0 .. Sunday = 6.
1970-01-01 (day 0) was a Thursday (= 3). -/
def dayOfWeekZ (z : ℤ) : ℕ := (((z + 3) % 7 + 7) % 7).toNat

/-- Convert a day number to (year, month, day-of-month) in the proleptic
Gregorian calendar (standard era-based civil-from-days algorithm). -/
def civilFromDays (z0 : ℤ) : ℤ × ℕ × ℕ :=
  let z := z0 + 719468
  let era : ℤ := (if 0 ≤ z then z else z - 146096) / 146097
  let doe : ℕ := (z - era * 146097).toNat
  let yoe : ℕ := (doe - doe / 1460 + doe / 36524 - doe / 146096) / 365
  let doy : ℕ := doe - (365 * yoe + yoe / 4 - yoe / 100)
  let mp : ℕ := (5 * doy + 2) / 153
  let d : ℕ := doy - (153 * mp + 2) / 5 + 1
  let m : ℕ := if mp < 10 then mp + 3 else mp - 9
  ((yoe : ℤ) + era * 400 + (if 10 ≤ mp then 1 else 0), m, d)

/-- Inverse civil conversion (days-from-civil), used for the ISO week. -/
def daysFromCivil (y0 : ℤ) (m d : ℕ) : ℤ :=
  let y : ℤ := y0 - (if m ≤ 2 then 1 else 0)
  let era : ℤ := (if 0 ≤ y then y else y - 399) / 400
  let yoe : ℕ := (y - era * 400).toNat
  let mp : ℕ := if 2 < m then m - 3 else m + 9
  let doy : ℕ := (153 * mp + 2) / 5 + d - 1
  let doe : ℕ := yoe * 365 + yoe / 4 - yoe / 100 + doy
  era * 146097 + (doe : ℤ) - 719468

/-- pandas `Timestamp.day`. -/
def dayOfMonthZ (z : ℤ) : ℕ := (civilFromDays z).2.2

/-- pandas `Timestamp.month`. -/
def monthZ (z : ℤ) : ℕ := (civilFromDays z).2.1

/-- pandas `Timestamp.isocalendar()[1]`: ISO 8601 week number, computed as
the week of the Thursday of the current ISO week. -/
def isoWeekZ (z : ℤ) : ℕ :=
  let thu : ℤ := z + 3 - (dayOfWeekZ z : ℤ)
  let y := (civilFromDays thu).1
  let ord : ℕ := (thu - daysFromCivil y 1 1).toNat + 1
  (ord - 1) / 7 + 1

/-! ## Feature keys and feature-row dictionaries

The Python code passes feature rows around as dicts keyed by string column
names; the embedding uses an inductive key type with the same names and
association lists with first-match lookup (Python dict assignment is
modelled by consing, which shadows earlier entries). -/

inductive FKey where
  | day_of_week | day_of_month | is_weekend | is_payday_period | week_of_month
  | lag_1 | lag_2 | lag_3 | lag_7 | lag_14
  | roll_mean_3 | roll_mean_7 | roll_mean_14
  | roll_std_3 | roll_std_7 | roll_std_14
  | roll_min_7 | roll_max_7
  | dow_avg | roc_1 | roc_7 | diff_1 | diff_7
  | ema_7 | ema_14
  | dow_sin | dow_cos | month_sin | month_cos
  | week_of_year | month | rel_to_roll7 | rel_to_dow
  deriving DecidableEq, Repr

/-- A Python dict from feature names to floats. -/
abbrev FDict := List (FKey × ℚ)

/-- `d.get(k)` (first match). -/
def dget? (d : FDict) (k : FKey) : Option ℚ :=
  (d.find? (fun p => p.1 = k)).map (fun p => p.2)

/-- `d.get(k, v)`. -/
def dgetD (d : FDict) (k : FKey) (v : ℚ) : ℚ := (dget? d k).getD v

/-- `d[k] = v` (assignment shadows any earlier binding). -/
def dset (d : FDict) (k : FKey) (v : ℚ) : FDict := (k, v) :: d

/-- `FDict.isEmpty`, the truthiness test Python applies to dicts. -/
def dIsEmpty (d : FDict) : Bool := d.isEmpty

/-! ## Exponential moving averages and the momentum metric
(HybridBrain._calculate_momentum_metrics, runtime_config defaults:
spans {short 7, medium 14, long 30}, weights {0.5, 0.3, 0.2}) -/

/-- Running EMA continuation: `e_i = (1 - alpha) * e_(i-1) + alpha * x_i`
(pandas `ewm(span, adjust=False).mean()` recursion). -/
def emaFrom (alpha e : ℚ) : List ℚ → List ℚ
  | [] => []
  | x :: xs =>
      let e2 := (1 - alpha) * e + alpha * x
      e2 :: emaFrom alpha e2 xs

/-- The full EMA series of `q` with smoothing `alpha = 2 / (span + 1)`
(pandas `ewm(span=span, adjust=False).mean()`; the first value is the first
observation). -/
def emaList (span : ℕ) : List ℚ → List ℚ
  | [] => []
  | x :: xs => x :: emaFrom (2 / ((span : ℚ) + 1)) x xs

/-- One momentum component: relative change of the EMA against its value
`span` rows earlier (`ema.shift(span).iloc[-1]`); if that lag is NaN (series
shorter than span+1) or zero, the code returns 0. -/
def momComp (span : ℕ) (q : List ℚ) : ℚ :=
  if q.length ≤ span then 0
  else
    let e := emaList span q
    let cur := (e.get? (q.length - 1)).getD 0
    let lag := (e.get? (q.length - 1 - span)).getD 0
    if lag = 0 then 0 else (cur - lag) / lag

/-- `combined = 0.5 * m_short + 0.3 * m_medium + 0.2 * m_long` with the
default spans 7 / 14 / 30. -/
def momentumCombined (q : List ℚ) : ℚ :=
  (1/2) * momComp 7 q + (3/10) * momComp 14 q + (1/5) * momComp 30 q

/-! ## Rolling-mean feature (HybridBrain._feature_engineering)

`df['roll_mean_w'] = df['quantity'].shift(1).rolling(window=w,
min_periods=1).mean()` followed by `fillna(global_mean)`. At row `t` the
shifted rolling window holds exactly the quantities of rows
`max(0, t-w) .. t-1` (rolling skips the NaN that shift introduced at
position 0); it is empty only at `t = 0`, where the value is NaN and is
backfilled with `global_mean = df['quantity'].mean()`. -/
def rollMeanFeature (w : ℕ) (q : List ℚ) (t : ℕ) : ℚ :=
  let win := (q.take t).drop (t - w)
  if win.isEmpty then listMean q else listMean win

/-! ## Day-of-week grouping
`df.groupby(df['date'].dt.dayofweek)['quantity'].mean().to_dict()`. -/

/-- Sales rows: (date as day number, quantity). -/
def SalesRow := ℤ × ℚ

/-- Per-day-of-week mean quantity, keyed by dayofweek (pandas groupby sorts
its at most 7 keys). -/
def dowMeansList (df : List (ℤ × ℚ)) : List (ℕ × ℚ) :=
  (List.range 7).filterMap (fun k =>
    let g := df.filter (fun r => dayOfWeekZ r.1 = k)
    if g.isEmpty then none else some (k, listMean (g.map (fun r => r.2))))

/-- `patterns.get(k)` on the day-of-week dict. -/
def dowLookup (pats : List (ℕ × ℚ)) (k : ℕ) : Option ℚ :=
  (pats.find? (fun p => p.1 = k)).map (fun p => p.2)

/-! ## Burst detector (HybridBrain._detect_burst_physics)

Config defaults: baseline window 30 days, payday ranges [1,5] and [25,31]
with multiplier 1.15, burst thresholds mild 1.0 / significant 2.0 /
critical 3.0. The residual sigma is `residuals.std()` (ddof = 1), which is
a square root; the embedding keeps `sigma^2` (rational) and decides each
threshold comparison `score > t` in the equivalent squared form
`diff > 0 and diff^2 > t^2 * sigma^2` (valid because sigma > 0 and t > 0;
the code falls back to `global_avg * 0.1` or `1.0` when sigma is 0 or NaN,
both positive on cleaned data). -/

/-- Payday factor: 1.15 when the day of month is in a payday range. -/
def paydayFactor (z : ℤ) : ℚ :=
  if (1 ≤ dayOfMonthZ z ∧ dayOfMonthZ z ≤ 5) ∨ (25 ≤ dayOfMonthZ z ∧ dayOfMonthZ z ≤ 31)
  then 23/20 else 1

/-- `df['quantity'].rolling(window=30, min_periods=1).mean()` at row `t`:
mean of rows `max(0, t-29) .. t`. -/
def rollingBaseline (q : List ℚ) (t : ℕ) : ℚ :=
  listMean ((q.take (t + 1)).drop (t + 1 - 30))

/-- Day-of-week factor for a row: that day's historical mean over the global
mean (1.0 when the global mean is 0). -/
def burstDowFactor (df : List (ℤ × ℚ)) (z : ℤ) : ℚ :=
  let g := listMean (df.map (fun r => r.2))
  if g = 0 then 1 else ((dowLookup (dowMeansList df) (dayOfWeekZ z)).getD g) / g

/-- `expected_full` at row `t`: baseline * dow factor * payday factor. -/
def burstExpected (df : List (ℤ × ℚ)) (t : ℕ) : ℚ :=
  rollingBaseline (df.map (fun r => r.2)) t *
    burstDowFactor df (((df.get? t).map (fun r => r.1)).getD 0) *
    paydayFactor (((df.get? t).map (fun r => r.1)).getD 0)

/-- Residuals `quantity - expected_full` for every row. -/
def burstResiduals (df : List (ℤ × ℚ)) : List ℚ :=
  (List.range df.length).map (fun t =>
    (((df.get? t).map (fun r => r.2)).getD 0) - burstExpected df t)

/-- `sigma^2`: the ddof-1 variance of the residuals, replaced by
`(global_avg * 0.1)^2` (or 1) when sigma is 0 or NaN (single row). -/
def burstSigmaSq (df : List (ℤ × ℚ)) : ℚ :=
  let v := sampleVar (burstResiduals df)
  let g := listMean (df.map (fun r => r.2))
  if df.length ≤ 1 ∨ v = 0 then (if 0 < g then (g / 10) ^ 2 else 1) else v

/-- `actual - expected` for the most recent day. -/
def burstDiff (df : List (ℤ × ℚ)) : ℚ :=
  (((df.getLast?).map (fun r => r.2)).getD 0) - burstExpected df (df.length - 1)

inductive BurstLevel where
  | NORMAL | MILD | SIGNIFICANT | CRITICAL
  deriving DecidableEq, Repr

/-- Burst level classification: `score = diff / sigma` compared against
3.0 / 2.0 / 1.0, decided in squared form (see section comment). -/
def burstLevel (df : List (ℤ × ℚ)) : BurstLevel :=
  let d := burstDiff df
  let s2 := burstSigmaSq df
  if 0 < d ∧ 9 * s2 < d ^ 2 then .CRITICAL
  else if 0 < d ∧ 4 * s2 < d ^ 2 then .SIGNIFICANT
  else if 0 < d ∧ s2 < d ^ 2 then .MILD
  else .NORMAL

/-- Keys of the Python dict a burst record could carry. -/
inductive BurstKey where
  | actual | expected | burst_score | level | factors | burst_type
  deriving DecidableEq, Repr

/-- The keys of the dict `_detect_burst_physics` actually returns
(transcribed from the return statement, lines 171-180). -/
def burstRecordKeys : List BurstKey :=
  [.actual, .expected, .burst_score, .level, .factors]

/-! ## Engine state (the persisted fields of HybridBrain used by training
and prediction) -/

/-- Rational stand-ins for the irrational trig feature encodings
(np.sin / np.cos of scaled day-of-week and month). The values only flow
into the abstract regressor oracle; every theorem holds for all of them. -/
structure Trig where
  dowSinQ : ℕ → ℚ
  dowCosQ : ℕ → ℚ
  monthSinQ : ℕ → ℚ
  monthCosQ : ℕ → ℚ

/-- The all-zero instantiation, used for concrete runs (the rule-based
paths never read these entries). -/
def trig0 : Trig := ⟨fun _ => 0, fun _ => 0, fun _ => 0, fun _ => 0⟩

/-- The subset of HybridBrain instance state consumed by
`predict_next_days` (plus the summary statistics the claims mention).
`mlModel` is the abstract regressor: `none` models `self.model is None`;
an oracle result of `none` models an exception raised during inference. -/
structure BrainState where
  isTrainedML : Bool
  mlModel : Option (FDict → Option ℚ)
  stdError : ℚ
  lastRow : Option FDict
  lastDate : ℤ
  ensembleWeights : Option (ℚ × ℚ)
  dowPatterns : List (ℕ × ℚ)
  momentumComb : ℚ
  featureCols : List FKey
  dataMean : ℚ
  dataStd : ℚ
  dataCv : ℚ

/-- The freshly constructed, untrained HybridBrain (the __init__ values of
the modelled fields). -/
def emptyBrain : BrainState :=
  { isTrainedML := false, mlModel := none, stdError := 0, lastRow := none,
    lastDate := 0, ensembleWeights := none, dowPatterns := [],
    momentumComb := 0, featureCols := [], dataMean := 0, dataStd := 1,
    dataCv := 0 }

instance : Inhabited BrainState := ⟨emptyBrain⟩

/-- runtime_config default `calendar.weekend_dows`. -/
def weekendDows : List ℕ := [5, 6]

/-! ## Ensemble weights (HybridBrain._compute_ensemble_weights) -/

/-- The improvement-to-trust base table. -/
def mlBase (improvement : ℚ) : ℚ :=
  if 80 ≤ improvement then 17/20
  else if 70 ≤ improvement then 4/5
  else if 60 ≤ improvement then 3/4
  else if 50 ≤ improvement then 7/10
  else if 30 ≤ improvement then 13/20
  else 11/20

/-- Penalty for high volatility: `if data_cv > 0.6`. -/
def cvPenalty (dataCv w : ℚ) : ℚ :=
  if 3/5 < dataCv then max (1/2) (w - 1/10) else w

/-- Penalty for overfitting: thresholds 3.0 and 2.0 on the overfit ratio. -/
def overfitPenalty (overfit w : ℚ) : ℚ :=
  if 3 < overfit then max (1/2) (w - 3/20)
  else if 2 < overfit then max (1/2) (w - 1/10)
  else w

/-- `_compute_ensemble_weights(improvement)`: returns the (ml, rule) pair;
the ml weight is clamped to [0.5, 0.9] and rule = 1 - ml. -/
def computeEnsembleWeights (improvement dataCv overfit : ℚ) : ℚ × ℚ :=
  let w := min (max (overfitPenalty overfit (cvPenalty dataCv (mlBase improvement))) (1/2)) (9/10)
  (w, 1 - w)

/-! ## Training (HybridBrain.train and _cold_start_mode) -/

/-- Stable insertion keeping existing rows with an earlier-or-equal date in
front (df.sort_values is a stable sort on the date column). -/
def insertByDate (r : ℤ × ℚ) : List (ℤ × ℚ) → List (ℤ × ℚ)
  | [] => [r]
  | x :: xs => if x.1 ≤ r.1 then x :: insertByDate r xs else r :: x :: xs

/-- Stable sort of the sales rows by date. -/
def sortByDate (l : List (ℤ × ℚ)) : List (ℤ × ℚ) :=
  l.foldl (fun acc r => insertByDate r acc) []

/-- `df.sort_values('date')` followed by dropping rows with
`quantity <= 0` (typed input cannot hold NaN, so `dropna` is a no-op). -/
def cleanHistory (l : List (ℤ × ℚ)) : List (ℤ × ℚ) :=
  (sortByDate l).filter (fun r => 0 < r.2)

inductive TrainError where
  | missingColumns   -- "Data must have 'date' and 'quantity' columns";
                     -- unreachable for the typed embedding input
  | noValidData      -- "No valid sales data"
  deriving DecidableEq, Repr

inductive TrainMode where
  | COLD_START
  | HYBRID_OPTIMIZED_v8_LOGTRANSFORM
  deriving DecidableEq, Repr

/-- The claim-relevant parts of the dict `train` returns. -/
structure TrainResult where
  success : Bool
  mode : TrainMode
  deriving DecidableEq, Repr

/-- `_cold_start_mode(df)` on the cleaned frame. `stdQ` is the value of
`df['quantity'].std()` (ddof = 1, a square root, hence a parameter; it is
only read when the frame has more than one row). `mom` is the combined
momentum already stored in `physics_metrics` by `train`. -/
def coldStartMode (df : List (ℤ × ℚ)) (stdQ : ℚ) (mom : ℚ) : BrainState :=
  let qs := df.map (fun r => r.2)
  let meanQty := max (listMean qs) 1
  let stdQty := if 1 < df.length then stdQ else meanQty * (3/10)
  let lastD := ((df.getLast?).map (fun r => r.1)).getD 0
  let lastQ := (qs.getLast?).getD 0
  let dow := dayOfWeekZ lastD
  { isTrainedML := false
    mlModel := none
    stdError := if 0 < stdQty then stdQty * (3/2) else meanQty * (3/10)
    lastRow := some
      [(.roll_mean_7, meanQty), (.roll_mean_3, meanQty),
       (.lag_1, max lastQ 1),
       (.lag_7, if 7 ≤ df.length then (qs.get? (df.length - 7)).getD meanQty else meanQty),
       (.dow_avg, meanQty), (.ema_7, meanQty),
       (.day_of_week, (dow : ℚ)),
       (.is_weekend, if dow ∈ weekendDows then 1 else 0)]
    lastDate := lastD
    ensembleWeights := some (0, 1)
    dowPatterns := dowMeansList df
    momentumComb := mom
    featureCols := []
    dataMean := meanQty
    dataStd := if 0 < stdQty then stdQty else 1
    dataCv := if 0 < meanQty then (if 0 < stdQty then stdQty else 1) / meanQty else 0 }

/-- `HybridBrain.train`: clean, fail on an empty frame, compute the physics
metrics, then branch on `len(df) >= 14` into the (abstracted) ML path or
cold start. `mlTrainer` abstracts `_train_ml_model`, whose XGBoost fit is
not embeddable; no claim in scope depends on its output. Of the physics
metrics stored by `train`, prediction reads only the combined momentum, so
the state carries that; the burst record (embedded above as `burstLevel`
and friends) is stored but never read downstream. -/
def trainBrain (mlTrainer : List (ℤ × ℚ) → TrainResult × BrainState)
    (history : List (ℤ × ℚ)) (stdQ : ℚ) :
    Except TrainError (TrainResult × BrainState) :=
  let df := cleanHistory history
  if df.isEmpty then .error .noValidData
  else
    let mom := momentumCombined (df.map (fun r => r.2))
    if 14 ≤ df.length then .ok (mlTrainer df)
    else .ok ({ success := true, mode := .COLD_START }, coldStartMode df stdQ mom)

/-- A placeholder ML trainer for concrete runs that never reach the ML
branch (fewer than 14 cleaned rows). -/
def mlDummy : List (ℤ × ℚ) → TrainResult × BrainState :=
  fun _ => ({ success := true, mode := .HYBRID_OPTIMIZED_v8_LOGTRANSFORM }, emptyBrain)

/-- The trained state of a train call, with `emptyBrain` as the junk value
on the error branch (used only to name concrete successful states). -/
def trainedStateD (r : Except TrainError (TrainResult × BrainState)) : BrainState :=
  match r with
  | .ok p => p.2
  | .error _ => emptyBrain

/-! ## Prediction (HybridBrain.predict_next_days and
_prepare_feature_row), with runtime_config defaults:
trend_factor_scale 0.1, forecast_uncertainty_z 1.64. -/

inductive DataTier where
  | LOW | LOW_MEDIUM | MEDIUM | MEDIUM_HIGH | HIGH
  deriving DecidableEq, Repr

inductive Confidence where
  | LOW | MEDIUM | HIGH
  deriving DecidableEq, Repr

/-- Data-quality tier from `data_days = len(self.dow_patterns)`. -/
def tierOf (dataDays : ℕ) : DataTier :=
  if 60 ≤ dataDays then .HIGH
  else if 30 ≤ dataDays then .MEDIUM_HIGH
  else if 14 ≤ dataDays then .MEDIUM
  else if 7 ≤ dataDays then .LOW_MEDIUM
  else .LOW

def variationScale : DataTier → ℚ
  | .HIGH => 1
  | .MEDIUM_HIGH => 4/5
  | .MEDIUM => 3/5
  | .LOW_MEDIUM => 2/5
  | .LOW => 1/5

def trendSensitivity : DataTier → ℚ
  | .HIGH => 1/5
  | .MEDIUM_HIGH => 3/20
  | .MEDIUM => 1/10
  | .LOW_MEDIUM => 1/20
  | .LOW => 1/50

def dowClampLo : DataTier → ℚ
  | .HIGH => 4/5
  | .MEDIUM_HIGH => 17/20
  | .MEDIUM => 22/25
  | .LOW_MEDIUM => 23/25
  | .LOW => 19/20

def dowClampHi : DataTier → ℚ
  | .HIGH => 5/4
  | .MEDIUM_HIGH => 6/5
  | .MEDIUM => 23/20
  | .LOW_MEDIUM => 11/10
  | .LOW => 21/20

/-- Default day-of-week multipliers (Monday .. Sunday), with the dict-get
default 1.0 for an impossible key. -/
def dowMultipliers (k : ℕ) : ℚ :=
  match k with
  | 0 => 97/100
  | 1 => 93/100
  | 2 => 94/100
  | 3 => 24/25
  | 4 => 101/100
  | 5 => 27/25
  | 6 => 111/100
  | _ => 1

/-- A returned prediction point (the date is its day number; the formatted
string of the code is a bijective rendering of it). -/
structure PredPoint where
  date : ℤ
  q : ℤ
  lower : ℤ
  upper : ℤ
  confidence : Confidence
  dayOfWeek : ℕ
  isWeekend : Bool
  deriving DecidableEq, Repr

/-- The loop-invariant context `predict_next_days` sets up before its day
loop (tier parameters, ensemble weight, confidence, momentum, base date). -/
structure PredictCtx where
  days : ℕ
  tier : DataTier
  mlWeight : ℚ
  confidence : Confidence
  momentum : ℚ
  trendFactor : ℚ
  baseDate : ℤ
  stdError : ℚ
  dowPats : List (ℕ × ℚ)
  model : Option (FDict → Option ℚ)
  isTrainedML : Bool
  featureCols : List FKey
  trig : Trig

/-- The pre-loop setup of `predict_next_days` (lines 916-957). -/
def mkCtx (s : BrainState) (tg : Trig) (days : ℕ) : PredictCtx :=
  let dataDays := s.dowPatterns.length
  let tier := tierOf dataDays
  let useMl := s.mlModel.isSome && s.isTrainedML
  let mlWeight : ℚ :=
    if useMl then ((s.ensembleWeights.getD (3/4, 1/4)).1) else 0
  let confidence : Confidence :=
    if useMl then
      (if tier = .HIGH ∨ tier = .MEDIUM_HIGH then .HIGH else .MEDIUM)
    else
      (if tier = .HIGH ∨ tier = .MEDIUM_HIGH ∨ tier = .MEDIUM then .MEDIUM else .LOW)
  { days := days
    tier := tier
    mlWeight := mlWeight
    confidence := confidence
    momentum := s.momentumComb
    trendFactor := 1 + s.momentumComb * (1/10)
    baseDate := s.lastDate
    stdError := s.stdError
    dowPats := s.dowPatterns
    model := s.mlModel
    isTrainedML := s.isTrainedML
    featureCols := s.featureCols
    trig := tg }

set_option maxHeartbeats 2000000 in
/-- `_prepare_feature_row(next_date, current_row)`. -/
def prepareFeatureRow (tg : Trig) (dowPats : List (ℕ × ℚ)) (z : ℤ)
    (cr : FDict) : FDict :=
  let safeRoll7 := max (dgetD cr .roll_mean_7 1) (1/10)
  let safeRoll3 := max (dgetD cr .roll_mean_3 safeRoll7) (1/10)
  let safeLag1 := max (dgetD cr .lag_1 safeRoll7) (1/10)
  let safeLag7 := max (dgetD cr .lag_7 safeRoll7) (1/10)
  let dow := dayOfWeekZ z
  let dom := dayOfMonthZ z
  let dowAvg := if dowPats.isEmpty then safeRoll7
                else (dowLookup dowPats dow).getD safeRoll7
  [(.day_of_week, (dow : ℚ)),
   (.day_of_month, (dom : ℚ)),
   (.is_weekend, if dow ∈ weekendDows then 1 else 0),
   (.is_payday_period, if 25 ≤ dom ∨ dom ≤ 5 then 1 else 0),
   (.week_of_month, (((dom - 1) / 7 + 1 : ℕ) : ℚ)),
   (.lag_1, safeLag1),
   (.lag_2, dgetD cr .lag_2 safeLag1),
   (.lag_3, dgetD cr .lag_3 safeLag1),
   (.lag_7, safeLag7),
   (.lag_14, dgetD cr .lag_14 safeLag7),
   (.roll_mean_3, safeRoll3),
   (.roll_mean_7, safeRoll7),
   (.roll_mean_14, dgetD cr .roll_mean_14 safeRoll7),
   (.roll_std_3, dgetD cr .roll_std_3 0),
   (.roll_std_7, dgetD cr .roll_std_7 0),
   (.roll_std_14, dgetD cr .roll_std_14 0),
   (.roll_min_7, dgetD cr .roll_min_7 (safeRoll7 * (4/5))),
   (.roll_max_7, dgetD cr .roll_max_7 (safeRoll7 * (6/5))),
   (.dow_avg, dowAvg),
   (.roc_1, dgetD cr .roc_1 0),
   (.roc_7, dgetD cr .roc_7 0),
   (.diff_1, dgetD cr .diff_1 0),
   (.diff_7, dgetD cr .diff_7 0),
   (.ema_7, dgetD cr .ema_7 safeRoll7),
   (.ema_14, dgetD cr .ema_14 safeRoll7),
   (.dow_sin, tg.dowSinQ dow),
   (.dow_cos, tg.dowCosQ dow),
   (.month_sin, tg.monthSinQ (monthZ z)),
   (.month_cos, tg.monthCosQ (monthZ z)),
   (.week_of_year, (isoWeekZ z : ℚ)),
   (.month, (monthZ z : ℚ)),
   (.rel_to_roll7, safeLag1 / safeRoll7),
   (.rel_to_dow, if 0 < dowAvg then safeLag1 / dowAvg else 1)]

/-- The ML estimate for one day: the regressor on the projected feature
row, clamped at 0, falling back to the rolling-mean feature when there is
no trained regressor or the inference raises. -/
def stepMlPred (ctx : PredictCtx) (features : FDict) (roll7 : ℚ) : ℚ :=
  match ctx.model, ctx.isTrainedML with
  | some f, true =>
      match f (ctx.featureCols.map (fun k => (k, dgetD features k 0))) with
      | some v => max 0 v
      | none => roll7
  | _, _ => roll7

/-- The day-of-week factor block (default multiplier blended with the
learned pattern, with the weekend bias guard). -/
def stepDowFactor (ctx : PredictCtx) (dow : ℕ) : ℚ :=
  let defaultMult := dowMultipliers dow
  let vs := variationScale ctx.tier
  if ¬ ctx.dowPats.isEmpty ∧ (dowLookup ctx.dowPats dow).isSome ∧ ctx.tier ≠ .LOW then
    let learned := (dowLookup ctx.dowPats dow).getD 0
    let avgDow := if ctx.dowPats.isEmpty then 1
                  else listSum (ctx.dowPats.map (fun p => p.2)) / (ctx.dowPats.length : ℚ)
    let lf := if 0 < avgDow then max (dowClampLo ctx.tier) (min (dowClampHi ctx.tier) (learned / avgDow))
              else 1
    if dow ∈ weekendDows ∧ lf < defaultMult then
      let btd := 7/10 - vs * (2/5)
      lf * (1 - btd) + defaultMult * btd
    else
      lf * vs + defaultMult * (1 - vs)
  else defaultMult

/-- The raw estimate for day `i` (0-based), before the smoothing step:
ensemble of ML and rule estimates, then day-of-week factor, payday
adjustment, deterministic natural variation, and the momentum trend
effect (lines 977-1044). -/
def stepRaw (ctx : PredictCtx) (cr : FDict) (i : ℕ) : ℚ :=
  let z := ctx.baseDate + (i : ℤ) + 1
  let features := prepareFeatureRow ctx.trig ctx.dowPats z cr
  let dow := dayOfWeekZ z
  let dom := dayOfMonthZ z
  let roll7 := dgetD features .roll_mean_7 0
  let mlPred := stepMlPred ctx features roll7
  let dowAvg := if ctx.dowPats.isEmpty then roll7
                else (dowLookup ctx.dowPats dow).getD roll7
  let ruleBase := (2/5) * dgetD features .lag_1 0 + (7/20) * roll7 + (1/4) * dowAvg
  let rulePred := max 0 (ruleBase * ctx.trendFactor)
  let fp0 := ctx.mlWeight * mlPred + (1 - ctx.mlWeight) * rulePred
  let fp1 := fp0 * stepDowFactor ctx dow
  let vs := variationScale ctx.tier
  let paydayBoost := (27/25) * vs
  let paydayDip := (1/20) * vs
  let fp2 := if 25 ≤ dom ∨ dom ≤ 5 then fp1 * (1 + paydayBoost - 1)
             else if 12 ≤ dom ∧ dom ≤ 18 then fp1 * (1 - paydayDip)
             else fp1
  let seed : ℕ := (dom * 3 + monthZ z * 7 + dow * 2) % 100
  let maxVariation := (1/20) * vs
  let fp3 := fp2 * (1 + (((seed : ℚ) - 50) / 100) * maxVariation)
  if 3/100 < |ctx.momentum| then
    fp3 * (1 + ctx.momentum * trendSensitivity ctx.tier * ((i : ℚ) + 1) / (ctx.days : ℚ))
  else fp3

/-- Smoothing cap against the previous day (lines 1046-1055):
`max_daily_change = 0.15 + 0.15 * variation_scale`; an excursion beyond
the cap is pulled back to 80 percent of it. -/
def stepSmoothed (c : ℚ) (preds : List PredPoint) (raw : ℚ) : ℚ :=
  match preds.getLast? with
  | none => raw
  | some prevPt =>
      if 0 < prevPt.q then
        if 1 + c < raw / (prevPt.q : ℚ) then (prevPt.q : ℚ) * (1 + c * (4/5))
        else if raw / (prevPt.q : ℚ) < 1 - c then (prevPt.q : ℚ) * (1 - c * (4/5))
        else raw
      else raw

/-- `max_daily_change` for a tier. -/
def maxDailyChange (tier : DataTier) : ℚ := 3/20 + (3/20) * variationScale tier

/-- Integer output of one day: `int(max(1, round(final_pred)))`. -/
def stepQty (ctx : PredictCtx) (cr : FDict) (preds : List PredPoint) : ℤ :=
  max 1 (pyRound (stepSmoothed (maxDailyChange ctx.tier) preds (stepRaw ctx cr preds.length)))

/-- The prediction point appended for one day (lines 1060-1069). -/
def stepPoint (ctx : PredictCtx) (cr : FDict) (preds : List PredPoint) : PredPoint :=
  let i := preds.length
  let z := ctx.baseDate + (i : ℤ) + 1
  let dow := dayOfWeekZ z
  let qi := stepQty ctx cr preds
  let unc := (41/25) * ctx.stdError
  { date := z
    q := qi
    lower := max 0 (pyRound ((qi : ℚ) - unc))
    upper := pyRound ((qi : ℚ) + unc)
    confidence := ctx.confidence
    dayOfWeek := dow
    isWeekend := decide (dow ∈ weekendDows) }

/-- The rolling-state update for the next iteration (lines 1071-1080);
`newPreds` is the prediction list after appending the current point. -/
def stepRow (ctx : PredictCtx) (cr : FDict) (preds : List PredPoint)
    (newPreds : List PredPoint) (qi : ℤ) : FDict :=
  let i := preds.length
  let z := ctx.baseDate + (i : ℤ) + 1
  let features := prepareFeatureRow ctx.trig ctx.dowPats z cr
  let fLag1 := dgetD features .lag_1 0
  let cr1 := dset cr .lag_3 (dgetD cr .lag_2 fLag1)
  let cr2 := dset cr1 .lag_2 (dgetD cr1 .lag_1 fLag1)
  let cr3 := dset cr2 .lag_1 (qi : ℚ)
  let cr4 := if 6 ≤ i then
      match newPreds.get? (i - 6) with
      | some p => dset cr3 .lag_7 ((p.q : ℚ))
      | none => cr3
    else cr3
  let recent := (newPreds.drop (i - 6)).map (fun p => ((p.q : ℚ)))
  let cr5 := dset cr4 .roll_mean_7 (if recent.isEmpty then (qi : ℚ) else listMean recent)
  let cr6 := dset cr5 .roll_mean_3
      (if 3 ≤ recent.length then listMean (recent.drop (recent.length - 3)) else (qi : ℚ))
  cr6

/-- One iteration of the day loop: the appended point and the updated
rolling row. -/
def predictStep (ctx : PredictCtx) (cr : FDict) (preds : List PredPoint) :
    PredPoint × FDict :=
  let pt := stepPoint ctx cr preds
  (pt, stepRow ctx cr preds (preds ++ [pt]) pt.q)

/-- The day loop, `n` iterations remaining. -/
def predictAux (ctx : PredictCtx) : ℕ → FDict → List PredPoint → List PredPoint
  | 0, _, preds => preds
  | n + 1, cr, preds =>
      let pc := predictStep ctx cr preds
      predictAux ctx n pc.2 (preds ++ [pc.1])

inductive PredictError where
  | daysOutOfRange   -- ValueError("Days must be between 1 and 30")
  | notTrained       -- ValueError("Model not trained")
  deriving DecidableEq, Repr

/-- `predict_next_days(days)`. The days check precedes the trained check;
`if not self.last_row` is Python truthiness, true for both a missing and
an empty seed row. The method reads but never mutates the engine state
(the rolling row is a copy), so it is embedded as a pure function. -/
def predictNextDays (s : BrainState) (tg : Trig) (days : ℤ) :
    Except PredictError (List PredPoint) :=
  if days < 1 ∨ 30 < days then .error .daysOutOfRange
  else
    match s.lastRow with
    | none => .error .notTrained
    | some lr =>
        if dIsEmpty lr then .error .notTrained
        else .ok (predictAux (mkCtx s tg days.toNat) days.toNat lr [])

instance {α β : Type} [DecidableEq α] [DecidableEq β] : DecidableEq (Except α β) :=
  fun x y =>
    match x, y with
    | .error a, .error b =>
        if h : a = b then .isTrue (by rw [h])
        else .isFalse (fun hc => h (Except.error.inj hc))
    | .error _, .ok _ => .isFalse (fun hc => Except.noConfusion hc)
    | .ok _, .error _ => .isFalse (fun hc => Except.noConfusion hc)
    | .ok a, .ok b =>
        if h : a = b then .isTrue (by rw [h])
        else .isFalse (fun hc => h (Except.ok.inj hc))

/-- The prediction list of a call, with `[]` as the junk value on the error
branch (used to name concrete outputs). -/
def predsOf (s : BrainState) (tg : Trig) (days : ℤ) : List PredPoint :=
  match predictNextDays s tg days with
  | .ok l => l
  | .error _ => []

/-- Modelled from the spec: the portfolio-level sanity check that §4.5 of
the spec claims runs after the full horizon is generated — if the mean of
all predicted quantities deviates from the last known `roll_mean_7`
baseline by more than the configured threshold (the spec names 100%), the
whole forecast is uniformly rescaled toward the baseline with the rescale
factor capped at ±50%. No such step exists in `predict_next_days`; this
definition exists to compare the code against the claimed behaviour. -/
def specPortfolioRescale (baseline : ℚ) (pts : List PredPoint) : List PredPoint :=
  let m := listMean (pts.map (fun p => ((p.q : ℚ))))
  if 0 < baseline ∧ 1 < |m - baseline| / baseline then
    let f := max (1/2) (min (3/2) (baseline / m))
    pts.map (fun p => { p with q := pyRound (f * (p.q : ℚ)) })
  else pts


/-! ## Concrete states used by counterexamples and witnesses -/

/- Rat.add / mul / inv / sub are irreducible in Batteries, which blocks
elaborator reduction in `decide`; restore the default reducibility for the
concrete evaluations below (the kernel ignores reducibility either way). -/
attribute [local semireducible] Rat.add Rat.mul Rat.inv Rat.sub

/-- One sales row of quantity 4 on 2025-02-23 (day 20142, a Sunday). The
std parameter is irrelevant for a single-row frame (the code takes the
`mean * 0.3` branch). -/
def oneRowState : BrainState :=
  trainedStateD (trainBrain mlDummy [(20142, 4)] 0)

/-- Nine consecutive sales rows 2025-03-06 .. 2025-03-14 (days
20153..20161), eight days of quantity 1 and a final spike of 81. The
sample standard deviation of the quantities is exactly 80/3 (certified in
the theorems that use this state). -/
def spikeHist : List (ℤ × ℚ) :=
  [(20153, 1), (20154, 1), (20155, 1), (20156, 1), (20157, 1),
   (20158, 1), (20159, 1), (20160, 1), (20161, 81)]

def spikeState : BrainState := trainedStateD (trainBrain mlDummy spikeHist (80/3))

/-- Thirty flat days would do as well; eight suffice: 2024-05-06 ..
2024-05-13 (days 19849..19856, none in a payday range), seven days of
quantity 10 and a final spike of 100. -/
def burstHist : List (ℤ × ℚ) :=
  [(19849, 10), (19850, 10), (19851, 10), (19852, 10), (19853, 10),
   (19854, 10), (19855, 10), (19856, 100)]

/-! ## C1 — no-lookahead of the rolling features -/

/-- C1 (counterexample): the claim fails at row t = 0. `roll_mean_7` at
row 0 is NaN (the shifted rolling window is empty) and is backfilled with
the global mean of the whole series, which depends on quantity[0] (and on
every later row): mutating quantity[0] from 1 to 5 changes the feature at
row 0 from 3/2 to 7/2. -/
theorem rollMean_lookahead_counterexample :
    rollMeanFeature 7 [1, 2] 0 = 3/2 ∧ rollMeanFeature 7 [5, 2] 0 = 7/2 ∧
    rollMeanFeature 7 [1, 2] 0 ≠ rollMeanFeature 7 [5, 2] 0 := by
  decide

/-- C1 (amended): for every row index t ≥ 1 the rolling-mean feature at
row t is invariant to the quantity at row t and all later rows — it only
reads rows strictly before t. At t = 0 the NaN backfill uses the global
mean and the invariance fails (see the counterexample). -/
theorem rollMean_no_lookahead (w : ℕ) (q q' : List ℚ) (t : ℕ)
    (hw : 1 ≤ w) (ht : 1 ≤ t) (hq : t ≤ q.length) (hq' : t ≤ q'.length)
    (agree : ∀ i, i < t → q.get? i = q'.get? i) :
    rollMeanFeature w q t = rollMeanFeature w q' t := by
  have htake : q.take t = q'.take t := by
    apply List.ext_get?
    intro n
    rcases lt_or_le n t with hn | hn
    · rw [List.get?_take hn, List.get?_take hn]
      exact agree n hn
    · have l1 : (q.take t).length ≤ n := by
        rw [List.length_take]; omega
      have l2 : (q'.take t).length ≤ n := by
        rw [List.length_take]; omega
      rw [List.get?_eq_none.mpr l1, List.get?_eq_none.mpr l2]
  have hlen : ((q.take t).drop (t - w)).length = t - (t - w) := by
    rw [List.length_drop, List.length_take]; omega
  have hne : ¬ ((q.take t).drop (t - w)).isEmpty = true := by
    rw [List.isEmpty_iff_length_eq_zero, hlen]; omega
  have hne2 : ¬ ((q'.take t).drop (t - w)).isEmpty = true := by
    rw [← htake]; exact hne
  unfold rollMeanFeature
  rw [htake, if_neg hne2, if_neg hne2]

/-- C1 (witness for the amended theorem): at t = 2 the feature ignores a
mutation of quantity[2]. -/
theorem rollMean_no_lookahead_witness :
    rollMeanFeature 7 [1, 2, 9] 2 = rollMeanFeature 7 [1, 2, 4] 2 :=
  rollMean_no_lookahead 7 [1, 2, 9] [1, 2, 4] 2 (by decide) (by decide)
    (by decide) (by decide) (by decide)

/-! ## C4 — ensemble weight invariant -/

/-- C4: after every successful training call the stored weight pair sums
to exactly 1 (hence within 1e-9): the ML path stores
`_compute_ensemble_weights(improvement)`, whose ml component is clamped to
[0.5, 0.9] and whose rule component is 1 - ml, for every improvement, data
coefficient of variation and overfit ratio; the cold-start path stores
exactly {ml: 0, rule: 1}. -/
theorem ensemble_weights_invariant :
    (∀ improvement dataCv overfit : ℚ,
      (computeEnsembleWeights improvement dataCv overfit).1 +
        (computeEnsembleWeights improvement dataCv overfit).2 = 1 ∧
      1/2 ≤ (computeEnsembleWeights improvement dataCv overfit).1 ∧
      (computeEnsembleWeights improvement dataCv overfit).1 ≤ 9/10) ∧
    (∀ (df : List (ℤ × ℚ)) (stdQ mom : ℚ),
      (coldStartMode df stdQ mom).ensembleWeights = some (0, 1)) := by
  constructor
  · intro improvement dataCv overfit
    unfold computeEnsembleWeights
    refine ⟨by ring, ?_, ?_⟩
    · exact le_min (le_trans (le_max_right _ _) le_rfl) (by norm_num)
    · exact min_le_right _ _
  · intro df stdQ mom
    rfl

/-! ## C9 — monotone improvement-to-trust mapping -/

theorem mlBase_mono {i j : ℚ} (hij : i ≤ j) : mlBase i ≤ mlBase j := by
  unfold mlBase
  split_ifs <;> try norm_num
  all_goals linarith

theorem cvPenalty_mono (dataCv : ℚ) {w w' : ℚ} (h : w ≤ w') :
    cvPenalty dataCv w ≤ cvPenalty dataCv w' := by
  unfold cvPenalty
  split_ifs
  · exact max_le_max le_rfl (by linarith)
  · exact h

theorem overfitPenalty_mono (overfit : ℚ) {w w' : ℚ} (h : w ≤ w') :
    overfitPenalty overfit w ≤ overfitPenalty overfit w' := by
  unfold overfitPenalty
  split_ifs
  · exact max_le_max le_rfl (by linarith)
  · exact max_le_max le_rfl (by linarith)
  · exact h

/-- C9: with the data coefficient of variation and the overfit ratio held
fixed, the stored ml ensemble weight is monotonically non-decreasing in the
improvement percentage. -/
theorem ensemble_weight_monotone (dataCv overfit i j : ℚ) (hij : i ≤ j) :
    (computeEnsembleWeights i dataCv overfit).1 ≤
      (computeEnsembleWeights j dataCv overfit).1 := by
  unfold computeEnsembleWeights
  exact min_le_min
    (max_le_max (overfitPenalty_mono overfit (cvPenalty_mono dataCv (mlBase_mono hij))) le_rfl)
    le_rfl

/-- C9 (witness): two runs on the same data shape with improvement 95
versus 20: the 95 run's ml weight is at least the 20 run's. -/
theorem ensemble_weight_monotone_witness :
    (computeEnsembleWeights 20 (3/10) 1).1 ≤ (computeEnsembleWeights 95 (3/10) 1).1 :=
  ensemble_weight_monotone (3/10) 1 20 95 (by norm_num)

/-! ## C6 — prediction error handling -/

/-- C6 (counterexample): for an untrained state and an out-of-range
horizon the code raises the parameter error, not the precondition error —
the days check precedes the trained check, so "raises a precondition error
whenever the state is untrained" fails at days = 0. -/
theorem predict_error_precedence_counterexample :
    predictNextDays emptyBrain trig0 0 = .error .daysOutOfRange ∧
    emptyBrain.lastRow = none ∧
    PredictError.daysOutOfRange ≠ PredictError.notTrained := by
  refine ⟨rfl, rfl, by decide⟩

/-- C6 (amended): `predict_next_days` raises the parameter error for every
days outside [1, 30] (the check runs first and the state is never touched —
the embedding is a pure function of the state); for days inside [1, 30] it
raises the precondition error exactly when the state has no seed feature
row (None or empty); and on a seeded state with days in range it returns
normally. -/
theorem predict_error_handling :
    (∀ (s : BrainState) (tg : Trig) (days : ℤ), days < 1 ∨ 30 < days →
      predictNextDays s tg days = .error .daysOutOfRange) ∧
    (∀ (s : BrainState) (tg : Trig) (days : ℤ), 1 ≤ days → days ≤ 30 →
      (s.lastRow = none ∨ s.lastRow = some []) →
      predictNextDays s tg days = .error .notTrained) ∧
    (∀ (s : BrainState) (tg : Trig) (days : ℤ) (lr : FDict), 1 ≤ days → days ≤ 30 →
      s.lastRow = some lr → lr ≠ [] →
      ∃ pts, predictNextDays s tg days = .ok pts) := by
  refine ⟨?_, ?_, ?_⟩
  · intro s tg days hd
    unfold predictNextDays
    rw [if_pos hd]
  · intro s tg days h1 h2 hlr
    unfold predictNextDays
    rw [if_neg (by omega)]
    rcases hlr with h | h <;> simp [h, dIsEmpty]
  · intro s tg days lr h1 h2 hlr hne
    unfold predictNextDays
    rw [if_neg (by omega)]
    have hde : dIsEmpty lr = false := by
      cases lr with
      | nil => exact absurd rfl hne
      | cons a l => rfl
    simp [hlr, hde]

/-- C6 (witness for the amended theorem): the three branches at concrete
inputs. -/
theorem predict_error_handling_witness :
    predictNextDays emptyBrain trig0 31 = .error .daysOutOfRange ∧
    predictNextDays emptyBrain trig0 7 = .error .notTrained ∧
    ∃ pts, predictNextDays oneRowState trig0 7 = .ok pts :=
  ⟨predict_error_handling.1 emptyBrain trig0 31 (by norm_num),
   predict_error_handling.2.1 emptyBrain trig0 7 (by norm_num) (by norm_num) (Or.inl rfl),
   predict_error_handling.2.2 oneRowState trig0 7 ((oneRowState.lastRow).getD [])
     (by norm_num) (by norm_num) (by decide) (by decide)⟩

/-! ## C8 — burst type classification -/

/-- C8 (counterexample): a series whose last day is classified above
NORMAL (seven flat days of 10 and a spike of 100 gives SIGNIFICANT), yet
the returned burst record carries no burst_type key — the return dict of
`_detect_burst_physics` has exactly the keys actual / expected /
burst_score / level / factors, and SEASONAL / VIRAL / MONITORING appear
nowhere in the module. -/
theorem burst_type_counterexample :
    burstLevel burstHist = .SIGNIFICANT ∧
    BurstKey.burst_type ∉ burstRecordKeys := by
  constructor
  · decide
  · decide

/-- C8 (amended): whenever the burst detector classifies a level other
than NORMAL (i.e. MILD, SIGNIFICANT or CRITICAL), the burst record it
returns still carries no burst_type field; no SEASONAL / VIRAL /
MONITORING subtype is computed anywhere in the detector. -/
theorem burst_no_type_field (df : List (ℤ × ℚ)) (h : burstLevel df ≠ .NORMAL) :
    (burstLevel df = .MILD ∨ burstLevel df = .SIGNIFICANT ∨ burstLevel df = .CRITICAL) ∧
    BurstKey.burst_type ∉ burstRecordKeys := by
  constructor
  · cases hl : burstLevel df
    · exact absurd hl h
    · exact Or.inl rfl
    · exact Or.inr (Or.inl rfl)
    · exact Or.inr (Or.inr rfl)
  · decide

/-- C8 (witness for the amended theorem). -/
theorem burst_no_type_field_witness :
    (burstLevel burstHist = .MILD ∨ burstLevel burstHist = .SIGNIFICANT ∨
      burstLevel burstHist = .CRITICAL) ∧
    BurstKey.burst_type ∉ burstRecordKeys :=
  burst_no_type_field burstHist (by decide)

/-! ## Loop invariants of the autoregressive day loop -/

/-- Well-formedness of the point emitted for 0-based day `j`: the date is
the (j+1)-st day after the base date, the quantity is an integer at least
1, and the bounds bracket it; the confidence is the tier-derived constant
of the call. -/
def PtWF (ctx : PredictCtx) (j : ℕ) (pt : PredPoint) : Prop :=
  pt.date = ctx.baseDate + (j : ℤ) + 1 ∧ 1 ≤ pt.q ∧ 0 ≤ pt.lower ∧
  pt.lower ≤ pt.q ∧ pt.q ≤ pt.upper ∧ pt.confidence = ctx.confidence

/-- Every point of the list is well-formed for its index. -/
def AllWF (ctx : PredictCtx) (l : List PredPoint) : Prop :=
  ∀ j pt, l.get? j = some pt → PtWF ctx j pt

/-- Every adjacent pair of quantities differs by at most
`c * previous + 1/2` (the smoothing cap up to the final rounding). -/
def AdjOK (c : ℚ) (l : List PredPoint) : Prop :=
  ∀ j a b, l.get? j = some a → l.get? (j + 1) = some b →
    |(b.q : ℚ) - (a.q : ℚ)| ≤ c * (a.q : ℚ) + 1/2

theorem maxDailyChange_pos (t : DataTier) : 0 < maxDailyChange t := by
  cases t <;> norm_num [maxDailyChange, variationScale]

theorem maxDailyChange_le (t : DataTier) : maxDailyChange t ≤ 3/10 := by
  cases t <;> norm_num [maxDailyChange, variationScale]

theorem one_le_stepQty (ctx : PredictCtx) (cr : FDict) (preds : List PredPoint) :
    1 ≤ stepQty ctx cr preds :=
  le_max_left 1 _

/-- The lower and upper bounds bracket an integer quantity `q >= 1` for
every non-negative uncertainty. -/
theorem bounds_bracket (q : ℤ) (u : ℚ) (hq : 1 ≤ q) (hu : 0 ≤ u) :
    0 ≤ max 0 (pyRound ((q : ℚ) - u)) ∧ max 0 (pyRound ((q : ℚ) - u)) ≤ q ∧
      q ≤ pyRound ((q : ℚ) + u) := by
  have hq0 : (0 : ℤ) ≤ q := by omega
  refine ⟨le_max_left _ _, ?_, ?_⟩
  · apply max_le hq0
    apply int_le_of_lt_half
    have := pyRound_le ((q : ℚ) - u)
    linarith
  · apply int_ge_of_gt_half
    have := le_pyRound ((q : ℚ) + u)
    linarith

/-- The point built by one loop step is well-formed at index
`preds.length`. -/
theorem stepPoint_wf (ctx : PredictCtx) (cr : FDict) (preds : List PredPoint)
    (hstd : 0 ≤ ctx.stdError) :
    PtWF ctx preds.length (stepPoint ctx cr preds) := by
  have hu : (0 : ℚ) ≤ (41/25) * ctx.stdError := by positivity
  obtain ⟨b1, b2, b3⟩ :=
    bounds_bracket (stepQty ctx cr preds) ((41/25) * ctx.stdError)
      (one_le_stepQty ctx cr preds) hu
  exact ⟨rfl, one_le_stepQty ctx cr preds, b1, b2, b3, rfl⟩

/-- The smoothing step keeps the raw value within `c * prev` of the
previous quantity, and never below `(1 - c) * prev`. -/
theorem stepSmoothed_bounds (c raw : ℚ) (preds : List PredPoint) (prev : PredPoint)
    (hc0 : 0 < c) (hlast : preds.getLast? = some prev) (hq : 1 ≤ prev.q) :
    |stepSmoothed c preds raw - (prev.q : ℚ)| ≤ c * (prev.q : ℚ) ∧
      (1 - c) * (prev.q : ℚ) ≤ stepSmoothed c preds raw := by
  have hq1 : (1 : ℚ) ≤ (prev.q : ℚ) := by exact_mod_cast hq
  have hpos : (0 : ℚ) < (prev.q : ℚ) := by linarith
  have hposz : (0 : ℤ) < prev.q := by omega
  unfold stepSmoothed
  rw [hlast]
  dsimp only
  rw [if_pos hposz]
  split_ifs with h1 h2
  · have e1 : (prev.q : ℚ) * (1 + c * (4/5)) - (prev.q : ℚ) = (prev.q : ℚ) * c * (4/5) := by
      ring
    constructor
    · rw [e1, abs_of_nonneg (by positivity)]
      nlinarith
    · nlinarith
  · have e1 : (prev.q : ℚ) * (1 - c * (4/5)) - (prev.q : ℚ) = -((prev.q : ℚ) * c * (4/5)) := by
      ring
    constructor
    · rw [e1, abs_neg, abs_of_nonneg (by positivity)]
      nlinarith
    · nlinarith
  · push_neg at h1 h2
    have hup : raw ≤ (1 + c) * (prev.q : ℚ) := by
      have := (div_le_iff hpos).mp h1
      linarith
    have hlo : (1 - c) * (prev.q : ℚ) ≤ raw := by
      have := (le_div_iff hpos).mpr (le_refl ((1 - c) * (prev.q : ℚ)))
      have h2b := (le_div_iff hpos).mp h2
      linarith
    constructor
    · rw [abs_le]
      constructor <;> nlinarith
    · exact hlo

/-- After rounding, one step moves the quantity at most
`c * prev + 1/2` away from the previous quantity (and the interior
`max 1` clamp is inactive). -/
theorem stepQty_smooth (ctx : PredictCtx) (cr : FDict) (preds : List PredPoint)
    (prev : PredPoint) (hlast : preds.getLast? = some prev) (hq : 1 ≤ prev.q) :
    |((stepQty ctx cr preds : ℤ) : ℚ) - (prev.q : ℚ)| ≤
      maxDailyChange ctx.tier * (prev.q : ℚ) + 1/2 := by
  have hc0 := maxDailyChange_pos ctx.tier
  have hc3 := maxDailyChange_le ctx.tier
  have hq1 : (1 : ℚ) ≤ (prev.q : ℚ) := by exact_mod_cast hq
  obtain ⟨habs, hlow⟩ :=
    stepSmoothed_bounds (maxDailyChange ctx.tier) (stepRaw ctx cr preds.length)
      preds prev hc0 hlast hq
  set sm := stepSmoothed (maxDailyChange ctx.tier) preds (stepRaw ctx cr preds.length)
    with hsm
  have hsm7 : 7/10 ≤ sm := by nlinarith
  have hr1 : (1 : ℤ) ≤ pyRound sm := by
    have hlb := le_pyRound sm
    have : (0 : ℚ) < (pyRound sm : ℚ) := by linarith
    have : (0 : ℤ) < pyRound sm := by exact_mod_cast this
    omega
  have hmax : stepQty ctx cr preds = pyRound sm := by
    unfold stepQty
    rw [← hsm]
    exact max_eq_right hr1
  rw [hmax]
  have hub := pyRound_le sm
  have hlb := le_pyRound sm
  have htri : |((pyRound sm : ℤ) : ℚ) - (prev.q : ℚ)| ≤
      |((pyRound sm : ℤ) : ℚ) - sm| + |sm - (prev.q : ℚ)| := abs_sub_le _ _ _
  have hhalf : |((pyRound sm : ℤ) : ℚ) - sm| ≤ 1/2 := by
    rw [abs_le]
    constructor <;> linarith
  linarith

/-- The day loop preserves the length accounting. -/
theorem predictAux_length (ctx : PredictCtx) :
    ∀ (n : ℕ) (cr : FDict) (preds : List PredPoint),
      (predictAux ctx n cr preds).length = preds.length + n := by
  intro n
  induction n with
  | zero => intro cr preds; rfl
  | succ n ih =>
      intro cr preds
      unfold predictAux
      rw [ih]
      simp [List.length_append]
      omega

/-- The day loop preserves both invariants. -/
theorem predictAux_inv (ctx : PredictCtx) (hstd : 0 ≤ ctx.stdError) :
    ∀ (n : ℕ) (cr : FDict) (preds : List PredPoint),
      AllWF ctx preds → AdjOK (maxDailyChange ctx.tier) preds →
      AllWF ctx (predictAux ctx n cr preds) ∧
        AdjOK (maxDailyChange ctx.tier) (predictAux ctx n cr preds) := by
  intro n
  induction n with
  | zero => intro cr preds h1 h2; exact ⟨h1, h2⟩
  | succ n ih =>
      intro cr preds h1 h2
      unfold predictAux
      apply ih
      · intro j pt hj
        rcases lt_trichotomy j preds.length with hlt | heq | hgt
        · rw [List.get?_append hlt] at hj
          exact h1 j pt hj
        · subst heq
          rw [List.get?_concat_length] at hj
          injection hj with hj
          subst hj
          exact stepPoint_wf ctx cr preds hstd
        · have hlen : (preds ++ [(predictStep ctx cr preds).1]).length ≤ j := by
            simp [List.length_append]
            omega
          rw [List.get?_eq_none.mpr hlen] at hj
          cases hj
      · intro j a b hja hjb
        rcases lt_trichotomy (j + 1) preds.length with hlt | heq | hgt
        · rw [List.get?_append hlt] at hjb
          rw [List.get?_append (by omega)] at hja
          exact h2 j a b hja hjb
        · have hja2 : preds.get? j = some a := by
            rw [List.get?_append (by omega)] at hja
            exact hja
          have hlastj : preds.getLast? = some a := by
            rw [List.getLast?_eq_get?]
            have : preds.length - 1 = j := by omega
            rw [this]
            exact hja2
          have hb : b = (predictStep ctx cr preds).1 := by
            rw [heq, List.get?_concat_length] at hjb
            injection hjb with hjb
            exact hjb.symm
          have hqa : 1 ≤ a.q := (h1 j a hja2).2.1
          have hbq : b.q = stepQty ctx cr preds := by rw [hb]; rfl
          rw [hbq]
          exact stepQty_smooth ctx cr preds a hlastj hqa
        · have hlen : (preds ++ [(predictStep ctx cr preds).1]).length ≤ j + 1 := by
            simp [List.length_append]
            omega
          rw [List.get?_eq_none.mpr hlen] at hjb
          cases hjb

/-- Inversion of a successful `predict_next_days` call. -/
theorem predictNextDays_ok_elim {s : BrainState} {tg : Trig} {days : ℤ}
    {pts : List PredPoint} (h : predictNextDays s tg days = .ok pts) :
    ∃ lr, s.lastRow = some lr ∧ dIsEmpty lr = false ∧ ¬(days < 1 ∨ 30 < days) ∧
      pts = predictAux (mkCtx s tg days.toNat) days.toNat lr [] := by
  unfold predictNextDays at h
  split at h
  · exact absurd h (by simp)
  next hd =>
    split at h
    next => exact absurd h (by simp)
    next lr hlr =>
      split at h
      next => exact absurd h (by simp)
      next hde =>
        refine ⟨lr, hlr, by simpa using hde, hd, ?_⟩
        exact (Except.ok.inj h).symm

/-- Forward direction: on a seeded state with days in range the call
returns exactly the loop output, which satisfies both invariants and has
one point per requested day. -/
theorem predictOkSpec (s : BrainState) (tg : Trig) (days : ℤ)
    (hstd : 0 ≤ s.stdError) (lr : FDict) (hlr : s.lastRow = some lr) (hne : lr ≠ [])
    (h1 : 1 ≤ days) (h2 : days ≤ 30) :
    predictNextDays s tg days =
      .ok (predictAux (mkCtx s tg days.toNat) days.toNat lr []) ∧
    AllWF (mkCtx s tg days.toNat) (predictAux (mkCtx s tg days.toNat) days.toNat lr []) ∧
    AdjOK (maxDailyChange (mkCtx s tg days.toNat).tier)
      (predictAux (mkCtx s tg days.toNat) days.toNat lr []) ∧
    ((predictAux (mkCtx s tg days.toNat) days.toNat lr []).length : ℤ) = days := by
  have hde : dIsEmpty lr = false := by
    cases lr with
    | nil => exact absurd rfl hne
    | cons a l => rfl
  have hok : predictNextDays s tg days =
      .ok (predictAux (mkCtx s tg days.toNat) days.toNat lr []) := by
    unfold predictNextDays
    rw [if_neg (by omega)]
    simp [hlr, hde]
  have hinv := predictAux_inv (mkCtx s tg days.toNat) hstd days.toNat lr []
    (by intro j pt hj; cases hj) (by intro j a b hja hjb; cases hja)
  refine ⟨hok, hinv.1, hinv.2, ?_⟩
  rw [predictAux_length]
  simp
  omega

/-! ## C2 — forecast output well-formedness -/

/-- C2: on every trained state (a successful train seeds a non-empty last
row and stores a non-negative std error — proved for cold start below, and
np.std is non-negative on the ML path) and every days in [1, 30],
`predict_next_days` returns exactly `days` points; their dates are the
consecutive days following the last training date (hence strictly
increasing); and every point satisfies
`0 <= lower_bound <= predicted_quantity <= upper_bound` with the integer
quantity at least 1. -/
theorem predict_next_days_wellformed (s : BrainState) (tg : Trig) (days : ℤ)
    (hstd : 0 ≤ s.stdError) (lr : FDict) (hlr : s.lastRow = some lr) (hne : lr ≠ [])
    (h1 : 1 ≤ days) (h2 : days ≤ 30) :
    ∃ pts, predictNextDays s tg days = .ok pts ∧ (pts.length : ℤ) = days ∧
      (∀ j pt, pts.get? j = some pt →
        pt.date = s.lastDate + (j : ℤ) + 1 ∧ 1 ≤ pt.q ∧ 0 ≤ pt.lower ∧
        pt.lower ≤ pt.q ∧ pt.q ≤ pt.upper) ∧
      (∀ j a b, pts.get? j = some a → pts.get? (j + 1) = some b →
        a.date < b.date) := by
  obtain ⟨hok, hwf, hadj, hlen⟩ := predictOkSpec s tg days hstd lr hlr hne h1 h2
  refine ⟨_, hok, hlen, ?_, ?_⟩
  · intro j pt hj
    obtain ⟨hd, hq, hl, hlq, hqu, _⟩ := hwf j pt hj
    exact ⟨hd, hq, hl, hlq, hqu⟩
  · intro j a b hja hjb
    have hda := (hwf j a hja).1
    have hdb := (hwf (j + 1) b hjb).1
    rw [hda, hdb]
    push_cast
    linarith

/-- C2 (witness): the single-row cold-start state, 7 days. -/
theorem predict_next_days_wellformed_witness :
    ∃ pts, predictNextDays oneRowState trig0 7 = .ok pts ∧ (pts.length : ℤ) = 7 ∧
      (∀ j pt, pts.get? j = some pt →
        pt.date = oneRowState.lastDate + (j : ℤ) + 1 ∧ 1 ≤ pt.q ∧ 0 ≤ pt.lower ∧
        pt.lower ≤ pt.q ∧ pt.q ≤ pt.upper) ∧
      (∀ j a b, pts.get? j = some a → pts.get? (j + 1) = some b →
        a.date < b.date) :=
  predict_next_days_wellformed oneRowState trig0 7 (by decide)
    ((oneRowState.lastRow).getD []) (by decide) (by decide) (by norm_num) (by norm_num)

/-! ## C3 — smoothing cap -/

/-- C3 (counterexample): cold-start on one row of quantity 4 dated
2025-02-23; day 1 (Feb 24) predicts 4, day 2 (Feb 25, payday) crashes, is
capped to 4 * (1 - 0.8 * 0.18) = 3.424 and then rounded to 3 — the
realized day-over-day ratio 1/4 exceeds the tier cap 0.18. -/
theorem smoothing_cap_counterexample :
    (predsOf oneRowState trig0 2).map (fun p => p.q) = [4, 3] ∧
    predictNextDays oneRowState trig0 2 = .ok (predsOf oneRowState trig0 2) ∧
    maxDailyChange (tierOf oneRowState.dowPatterns.length) = 9/50 ∧
    ¬ (|(3 : ℚ) - 4| / 4 ≤ 9/50) := by
  refine ⟨by decide, by decide, by decide, by decide⟩

/-- C3 (amended): for every trained state and horizon, consecutive points
satisfy `|pred[i+1] - pred[i]| <= maxChange * pred[i] + 1/2` with
`maxChange = 0.15 + 0.15 * variation_scale` of the data-quality tier: the
cap holds exactly on the pre-rounding value (the code even pulls back to
80 percent of the cap), and the final integer rounding can add at most
1/2, which makes the claimed ratio bound fail for small quantities (see
the counterexample). -/
theorem predict_smoothing_cap (s : BrainState) (tg : Trig) (days : ℤ)
    (pts : List PredPoint) (hstd : 0 ≤ s.stdError)
    (hok : predictNextDays s tg days = .ok pts) :
    ∀ j a b, pts.get? j = some a → pts.get? (j + 1) = some b →
      |(b.q : ℚ) - (a.q : ℚ)| ≤
        (3/20 + (3/20) * variationScale (tierOf s.dowPatterns.length)) * (a.q : ℚ) +
          1/2 := by
  obtain ⟨lr, hlr, hde, hdr, hpts⟩ := predictNextDays_ok_elim hok
  subst hpts
  have hinv := predictAux_inv (mkCtx s tg days.toNat) hstd days.toNat lr []
    (by intro j pt hj; cases hj) (by intro j a b hja hjb; cases hja)
  intro j a b hja hjb
  exact hinv.2 j a b hja hjb

/-- C3 (witness for the amended theorem): the counterexample pair (4, 3)
does satisfy the rounding-aware bound 0.18 * 4 + 1/2. -/
theorem predict_smoothing_cap_witness :
    |(((⟨20144, 3, 0, 6, .LOW, 1, false⟩ : PredPoint).q : ℚ)) -
        (((⟨20143, 4, 1, 7, .LOW, 0, false⟩ : PredPoint).q : ℚ))| ≤
      (3/20 + (3/20) * variationScale (tierOf oneRowState.dowPatterns.length)) *
          (((⟨20143, 4, 1, 7, .LOW, 0, false⟩ : PredPoint).q : ℚ)) + 1/2 :=
  predict_smoothing_cap oneRowState trig0 2 (predsOf oneRowState trig0 2)
    (by decide) (by decide) 0
    ⟨20143, 4, 1, 7, .LOW, 0, false⟩ ⟨20144, 3, 0, 6, .LOW, 1, false⟩
    (by decide) (by decide)

/-! ## C10 — data-quality tier bounded by the day-of-week count -/

theorem mkCtx_confidence (s : BrainState) (tg : Trig) (days : ℕ)
    (h : s.dowPatterns.length ≤ 7) :
    (mkCtx s tg days).confidence =
      (if s.mlModel.isSome && s.isTrainedML then Confidence.MEDIUM
       else Confidence.LOW) := by
  have htier : tierOf s.dowPatterns.length = .LOW ∨
      tierOf s.dowPatterns.length = .LOW_MEDIUM := by
    rcases Nat.lt_or_ge s.dowPatterns.length 7 with hlt | hge
    · left
      unfold tierOf
      rw [if_neg (by omega), if_neg (by omega), if_neg (by omega), if_neg (by omega)]
    · right
      have h7 : s.dowPatterns.length = 7 := by omega
      rw [h7]
      decide
  rcases htier with ht | ht <;>
    cases hml : (s.mlModel.isSome && s.isTrainedML) <;>
      simp [mkCtx, ht, hml]

/-- C10: `data_days` is the number of distinct day-of-week keys in
`dow_patterns`, at most 7 for every history; hence the tier is always LOW
(fewer than 7 distinct days of week) or LOW_MEDIUM (all 7),
variation_scale never exceeds 0.4, the tiers MEDIUM / MEDIUM_HIGH / HIGH
are unreachable, and every returned point carries confidence MEDIUM when a
regressor is trained and LOW otherwise (cold start). -/
theorem tier_bounded_by_dow_count :
    (∀ df : List (ℤ × ℚ), (dowMeansList df).length ≤ 7) ∧
    (∀ n : ℕ, n ≤ 7 →
      (tierOf n = .LOW ∨ tierOf n = .LOW_MEDIUM) ∧
      (tierOf n = .LOW_MEDIUM ↔ n = 7) ∧
      variationScale (tierOf n) ≤ 2/5 ∧
      tierOf n ≠ .MEDIUM ∧ tierOf n ≠ .MEDIUM_HIGH ∧ tierOf n ≠ .HIGH) ∧
    (∀ (s : BrainState) (tg : Trig) (days : ℤ) (pts : List PredPoint),
      s.dowPatterns.length ≤ 7 → 0 ≤ s.stdError →
      predictNextDays s tg days = .ok pts →
      ∀ pt ∈ pts, pt.confidence =
        (if s.mlModel.isSome && s.isTrainedML then Confidence.MEDIUM
         else Confidence.LOW)) := by
  refine ⟨?_, ?_, ?_⟩
  · intro df
    unfold dowMeansList
    exact le_trans (List.length_filterMap_le _ _) (by simp)
  · intro n hn
    interval_cases n <;> decide
  · intro s tg days pts hlen hstd hok
    obtain ⟨lr, hlr, hde, hdr, hpts⟩ := predictNextDays_ok_elim hok
    subst hpts
    have hinv := (predictAux_inv (mkCtx s tg days.toNat) hstd days.toNat lr []
      (by intro j pt hj; cases hj) (by intro j a b hja hjb; cases hja)).1
    intro pt hpt
    obtain ⟨j, hj⟩ := List.mem_iff_get?.mp hpt
    have hc := (hinv j pt hj).2.2.2.2.2
    rw [hc, mkCtx_confidence s tg days.toNat hlen]

/-- C10 (witness): the one-row cold-start state (1 distinct day of week):
the variation scale is within 0.4 and every point of a 7-day forecast has
confidence LOW. -/
theorem tier_bounded_witness :
    variationScale (tierOf (dowMeansList [((20142 : ℤ), (4 : ℚ))]).length) ≤ 2/5 ∧
    (∀ pt ∈ predsOf oneRowState trig0 7,
      pt.confidence =
        (if oneRowState.mlModel.isSome && oneRowState.isTrainedML then
          Confidence.MEDIUM else Confidence.LOW)) :=
  ⟨(tier_bounded_by_dow_count.2.1 (dowMeansList [((20142 : ℤ), (4 : ℚ))]).length
      (tier_bounded_by_dow_count.1 [((20142 : ℤ), (4 : ℚ))])).2.2.1,
   tier_bounded_by_dow_count.2.2 oneRowState trig0 7 (predsOf oneRowState trig0 7)
     (by decide) (by decide) (by decide)⟩

/-! ## C5 — cold-start mode -/

/-- C5: every history whose cleaned series has between 1 and 13 rows
trains successfully in COLD_START mode: no regressor is fit
(is_trained_ml stays false, model stays None), the state stores the
mean-derived statistics and per-day-of-week averages, and the ensemble
weights are exactly {ml: 0, rule: 1}; in particular a single-row history
(quantity > 0) trains successfully and predicting 7 days returns exactly
7 points with non-negative integer quantities. -/
theorem cold_start_training (ml : List (ℤ × ℚ) → TrainResult × BrainState)
    (hist : List (ℤ × ℚ)) (stdQ : ℚ)
    (h1 : 1 ≤ (cleanHistory hist).length) (h2 : (cleanHistory hist).length < 14) :
    (∃ s, trainBrain ml hist stdQ =
        .ok ({ success := true, mode := .COLD_START }, s) ∧
      s = coldStartMode (cleanHistory hist) stdQ
            (momentumCombined ((cleanHistory hist).map (fun r => r.2))) ∧
      s.isTrainedML = false ∧ s.mlModel = none ∧
      s.ensembleWeights = some (0, 1) ∧
      s.dataMean = max (listMean ((cleanHistory hist).map (fun r => r.2))) 1 ∧
      s.dowPatterns = dowMeansList (cleanHistory hist)) ∧
    (∀ (d : ℤ) (q : ℚ) (tg : Trig), 0 < q →
      ∃ pts, predictNextDays (trainedStateD (trainBrain ml [(d, q)] stdQ)) tg 7 =
          .ok pts ∧
        pts.length = 7 ∧ ∀ pt ∈ pts, 0 ≤ pt.q) := by
  constructor
  · have hne : ¬ (cleanHistory hist).isEmpty = true := by
      rw [List.isEmpty_iff_length_eq_zero]
      omega
    refine ⟨_, ?_, rfl, rfl, rfl, rfl, rfl, rfl⟩
    unfold trainBrain
    rw [if_neg hne, if_neg (by omega)]
  · intro d q tg hq
    have hclean : cleanHistory [(d, q)] = [(d, q)] := by
      simp [cleanHistory, sortByDate, insertByDate, hq]
    have htrain : trainBrain ml [(d, q)] stdQ =
        .ok ({ success := true, mode := .COLD_START },
          coldStartMode [(d, q)] stdQ (momentumCombined [q])) := by
      unfold trainBrain
      rw [hclean]
      simp
    set s0 := coldStartMode [(d, q)] stdQ (momentumCombined [q]) with hs0
    have hstate : trainedStateD (trainBrain ml [(d, q)] stdQ) = s0 := by
      rw [htrain]
      rfl
    have hm1 : (1 : ℚ) ≤ max (listMean [q]) 1 := le_max_right _ _
    have hstd : 0 ≤ s0.stdError := by
      rw [hs0]
      unfold coldStartMode
      simp only [List.length_cons, List.length_nil, List.map_cons, List.map_nil]
      norm_num
    obtain ⟨lrow, hlrow1, hlrow2⟩ :
        ∃ lrow, s0.lastRow = some lrow ∧ lrow ≠ [] := by
      rw [hs0]
      unfold coldStartMode
      exact ⟨_, rfl, by simp⟩
    obtain ⟨hok, hwf, _, hlen⟩ :=
      predictOkSpec s0 tg 7 hstd lrow hlrow1 hlrow2 (by norm_num) (by norm_num)
    rw [hstate]
    refine ⟨_, hok, ?_, ?_⟩
    · omega
    · intro pt hpt
      obtain ⟨j, hj⟩ := List.mem_iff_get?.mp hpt
      have := (hwf j pt hj).2.1
      omega

/-- C5 (witness): the concrete single-row history. -/
theorem cold_start_training_witness :
    ∃ pts, predictNextDays
        (trainedStateD (trainBrain mlDummy [((20142 : ℤ), (4 : ℚ))] 0)) trig0 7 =
        .ok pts ∧
      pts.length = 7 ∧ ∀ pt ∈ pts, 0 ≤ pt.q :=
  (cold_start_training mlDummy [((20142 : ℤ), (4 : ℚ))] 0 (by decide) (by decide)).2
    20142 4 trig0 (by norm_num)

/-! ## C7 — portfolio-level rescaling -/

/-- C7 (counterexample): a cold-start state from nine rows with a final
spike (momentum 10, so the rule estimate is inflated by the trend factor
2 and the momentum trend effect): the one-day forecast is [107] while the
stored roll_mean_7 baseline is 89/9, a deviation of about 982 percent —
far beyond the claimed 100 percent threshold — yet the returned forecast
is not rescaled (the spec-modelled rescale would change it). The first
two conjuncts certify the sample-std parameter 80/3 against the cleaned
quantities. -/
theorem portfolio_rescale_counterexample :
    ((80/3 : ℚ)) ^ 2 = sampleVar ((cleanHistory spikeHist).map (fun r => r.2)) ∧
    (0 : ℚ) ≤ 80/3 ∧
    dgetD ((spikeState.lastRow).getD []) .roll_mean_7 0 = 89/9 ∧
    predictNextDays spikeState trig0 1 = .ok (predsOf spikeState trig0 1) ∧
    (predsOf spikeState trig0 1).map (fun p => p.q) = [107] ∧
    1 < |listMean ((predsOf spikeState trig0 1).map (fun p => ((p.q : ℚ)))) - 89/9| /
          (89/9) ∧
    specPortfolioRescale (89/9) (predsOf spikeState trig0 1) ≠
      predsOf spikeState trig0 1 := by
  refine ⟨by decide, by decide, by decide, by decide, by decide, by decide, by decide⟩

/-- C7 (amended): `predict_next_days` applies no portfolio-level
rescaling: after the horizon loop the prediction list is returned exactly
as generated — there is no final sanity check against the roll_mean_7
baseline (the counterexample exhibits a forecast whose mean deviates from
the baseline by far more than 100 percent and is returned unchanged). -/
theorem predict_no_portfolio_rescale (s : BrainState) (tg : Trig) (days : ℤ)
    (lr : FDict) (hlr : s.lastRow = some lr) (hne : lr ≠ [])
    (h1 : 1 ≤ days) (h2 : days ≤ 30) :
    predictNextDays s tg days =
      .ok (predictAux (mkCtx s tg days.toNat) days.toNat lr []) := by
  have hde : dIsEmpty lr = false := by
    cases lr with
    | nil => exact absurd rfl hne
    | cons a l => rfl
  unfold predictNextDays
  rw [if_neg (by omega)]
  simp [hlr, hde]

/-- C7 (witness for the amended theorem). -/
theorem predict_no_portfolio_rescale_witness :
    predictNextDays spikeState trig0 1 =
      .ok (predictAux (mkCtx spikeState trig0 (1 : ℤ).toNat) (1 : ℤ).toNat
        ((spikeState.lastRow).getD []) []) :=
  predict_no_portfolio_rescale spikeState trig0 1 ((spikeState.lastRow).getD [])
    (by decide) (by decide) (by norm_num) (by norm_num)

end MarketPulse
